import Mathlib

/-!
Shallow embedding of the order-book ingestion and volume-cluster detection
core of the Crypto-Volume-Scanner repository.

Source files embedded:
  * `internal/service/orderbook/orderbook.go` (`orderbook`, `sortHashMap`,
    `binarySearch`, `Upsert`, `Asks`, `Bids`, `SearchVolume`)
  * `internal/service/found_volumes_service.go` (`foundVolumesService`,
    `UpsertFoundVolume`, `GetAllFoundVolume`)
  * `internal/models/binance_model.go` (`FoundVolume`),
    `internal/models/user_pairs` (`UserPairs`)

Modelling conventions:
  * Go `float64` prices/volumes/thresholds are modelled as `ℚ`; every
    operation the embedded code performs on them (comparison, subtraction,
    division by a nonzero value, multiplication by 100) is exact on the
    decimal values that occur, so `ℚ` and `float64` agree on them.
  * A `cmap.ConcurrentMap[string, V]` is modelled as an association list
    `List (String × V)` whose order is the insertion order; `Set` either
    overwrites in place or appends, `Remove` filters, `Items`/iteration
    yields the list order.  Go map iteration order is unspecified, so the
    model fixes one admissible order.
  * A *zero-value* (never `cmap.New`-initialised) concurrent map is
    modelled as `none : Option (List (String × V))`.  Iterating such a map
    (`Items`) panics in concurrent-map v2 (`snapshot` checks
    `len(m.shards) == 0`), which the model renders as `Except.error` with
    the library's panic message.
  * The goroutine pairs inside `Upsert`, `sortHashMap` and `SearchVolume`
    each compute independent results that are joined by `wg.Wait()` before
    anything is published; the model computes them sequentially (asks
    before bids), which realises one admissible schedule.
  * `time.Now()` is passed in as an explicit `now : Nat` timestamp.
  * `cast.ToFloat64` on the string cells of an order-book row parses a
    plain decimal literal (optional sign, digits, optional fractional
    part) and coerces anything malformed to `0`, the lenient-parsing
    policy of the source.
-/

/-- `models.FoundVolume` (internal/models/binance_model.go).  Field defaults
are the Go zero value of the struct. -/
structure FoundVolume where
  Exchange : String := ""
  Pair : String := ""
  Price : ℚ := 0
  Index : Int := 0
  Difference : ℚ := 0
  Volume : ℚ := 0
  VolumeTimeFound : Nat := 0
  Side : String := ""
  deriving Repr, DecidableEq

/-- `models.UserPairs` (internal/models/user_pairs.go). -/
structure UserPairs where
  UserID : Int := 0
  Exchange : String := ""
  Pair : String := ""
  ExactValue : ℚ := 0
  deriving Repr, DecidableEq

/-- Association-list model of `cmap.Set`: overwrite the binding in place if
the key is present, append otherwise. -/
def setKey {V : Type} (m : List (String × V)) (k : String) (v : V) :
    List (String × V) :=
  if m.any (fun e => e.1 == k) then
    m.map (fun e => if e.1 == k then (k, v) else e)
  else m ++ [(k, v)]

/-- Association-list model of `cmap.Get` (the `(value, ok)` pair is an
`Option`). -/
def getKey {V : Type} (m : List (String × V)) (k : String) : Option V :=
  (m.find? (fun e => e.1 == k)).map (fun e => e.2)

/-- Association-list model of `cmap.Remove`. -/
def removeKey {V : Type} (m : List (String × V)) (k : String) :
    List (String × V) :=
  m.filter (fun e => !(e.1 == k))

/-- Decimal value of a digit string, most significant digit first. -/
def digitsToNat (cs : List Char) : Nat :=
  cs.foldl (fun n c => n * 10 + (c.toNat - 48)) 0

/-- Split a character list at the first dot, if any. -/
def splitAtDot : List Char → List Char × Option (List Char)
  | [] => ([], none)
  | c :: r =>
    if c = '.' then ([], some r)
    else
      let p := splitAtDot r
      (c :: p.1, p.2)

/-- `cast.ToFloat64` applied to a string cell of an order-book row:
`strconv.ParseFloat` on a plain decimal literal (optional sign, integer
part, optional fractional part), with any malformed string coerced to `0`
(the `cast` library swallows the parse error).  Exponent and hexadecimal
float forms never occur in the embedded data and are treated as
malformed. -/
def parseNum (s : String) : ℚ :=
  let cs := s.data
  let neg := cs.headD ' ' = '-'
  let body := if cs.headD ' ' = '-' ∨ cs.headD ' ' = '+' then cs.tail else cs
  let p := splitAtDot body
  let fp := p.2.getD []
  if (p.1 ≠ [] ∨ fp ≠ []) ∧ p.1.all Char.isDigit ∧ fp.all Char.isDigit then
    (if neg then -1 else 1) *
      ((digitsToNat p.1 : ℚ) + (digitsToNat fp : ℚ) / (10 : ℚ) ^ fp.length)
  else 0

/-- `sortedSlice` (orderbook.go). -/
structure SortedSlice where
  ByVolume : List FoundVolume := []
  ByPrice : List FoundVolume := []
  deriving Repr, DecidableEq

/-- The slice `sortHashMap` builds before sorting: one `FoundVolume` per
hashmap entry, `Index` set to the iteration position (the source builds
two identical such slices, one per sort target). -/
def entriesToVolumes (hashmap : List (String × String)) : List FoundVolume :=
  hashmap.enum.map (fun p =>
    { Index := (p.1 : Int), Price := parseNum p.2.1, Volume := parseNum p.2.2 })

/-- `sortHashMap` (orderbook.go): build the entry slice, then stable-sort
one copy by volume and one by price (`sort.SliceStable`; a stable sort
over a total preorder is extensionally unique, so `List.insertionSort`
computes exactly the slice Go's stable sort produces). -/
def sortHashMap (hashmap : List (String × String)) : SortedSlice :=
  let base := entriesToVolumes hashmap
  { ByVolume := List.insertionSort (fun a b => a.Volume ≤ b.Volume) base
    ByPrice := List.insertionSort (fun a b => a.Price ≤ b.Price) base }

/-- `orderbookData` (orderbook.go).  The `asks`/`bids` concurrent maps are
`Option`-wrapped: `none` is the Go zero value (never initialised with
`cmap.New`), whose iteration panics. -/
structure OrderbookData where
  Pair : String := ""
  asks : Option (List (String × String)) := none
  bids : Option (List (String × String)) := none
  asksSortedByVolume : List FoundVolume := []
  bidsSortedByVolume : List FoundVolume := []
  asksSortedByPrice : List FoundVolume := []
  bidsSortedByPrice : List FoundVolume := []
  deriving Repr, DecidableEq

/-- The `orderbook` struct: the top-level concurrent map from pair to
`orderbookData` (always initialised by `NewOrderbook`). -/
structure Orderbook where
  data : List (String × OrderbookData) := []
  deriving Repr, DecidableEq

/-- `NewOrderbook()`. -/
def NewOrderbook : Orderbook := {}

/-- The panic message of concurrent-map v2's `snapshot` when `Items` is
called on a zero-value (uninitialised) map. -/
def cmapUninitializedPanic : String :=
  "cmap.ConcurrentMap is not initialized. Should run New() before usage."

/-- `m.Items()` on a possibly-uninitialised concurrent map: a zero-value
map panics (modelled as `Except.error`), an initialised one yields its
entries. -/
def itemsE {V : Type} (m : Option (List (String × V))) :
    Except String (List (String × V)) :=
  match m with
  | none => Except.error cmapUninitializedPanic
  | some l => Except.ok l

/-- `Asks` (orderbook.go): `Get` the pair's data (zero value if absent)
and return `orderbook.asks.Items()`. -/
def Asks (o : Orderbook) (pair : String) :
    Except String (List (String × String)) :=
  itemsE ((getKey o.data pair).getD {}).asks

/-- `Bids` (orderbook.go). -/
def Bids (o : Orderbook) (pair : String) :
    Except String (List (String × String)) :=
  itemsE ((getKey o.data pair).getD {}).bids

/-- The per-side goroutine body of `Upsert`: fill a fresh buffer map from
the raw `[price, volume]` rows in order.  The `interface{}` cells are the
strings delivered by the exchange JSON; `fmt.Sprintf("%v", val[0])` on a
string is the string itself. -/
def buildSide (rows : List (String × String)) : List (String × String) :=
  rows.foldl (fun buff val => setKey buff val.1 val.2) []

/-- `Upsert` (orderbook.go): remove the pair's entry, build both side maps
and their four sorted views (the two goroutines write disjoint fields and
are joined by `wg.Wait()` before `Set` publishes the snapshot), then store
the fully-built `orderbookData` under the pair. -/
def Upsert (o : Orderbook) (pair : String) (asks bids : List (String × String)) :
    Orderbook :=
  let removed := removeKey o.data pair
  let buffAsks := buildSide asks
  let buffBids := buildSide bids
  let level2Data : OrderbookData :=
    { Pair := pair
      asks := some buffAsks
      bids := some buffBids
      asksSortedByPrice := (sortHashMap buffAsks).ByPrice
      asksSortedByVolume := (sortHashMap buffAsks).ByVolume
      bidsSortedByPrice := (sortHashMap buffBids).ByPrice
      bidsSortedByVolume := (sortHashMap buffBids).ByVolume }
  ⟨setKey removed pair level2Data⟩

/-- `binarySearch` (orderbook.go) with an explicit recursion budget.  The
source recursion strictly shrinks the slice, so a budget of the initial
slice length is never exhausted (`binarySearchGo_congr`); the budget only
makes the definition structurally recursive.  Each step mirrors the Go
`switch`: empty slice yields the zero `FoundVolume`; a middle element
meeting the threshold is returned immediately; otherwise the search
recurses into the upper half `slice[mid+1:]` only. -/
def binarySearchGo (fuel : Nat) (pair : String) (slice : List FoundVolume)
    (search : ℚ) : FoundVolume :=
  match fuel with
  | 0 => {}
  | f + 1 =>
    let mid := slice.length / 2
    if slice.length = 0 then {}
    else if search ≤ (slice.getD mid {}).Volume then slice.getD mid {}
    else binarySearchGo f pair (slice.drop (mid + 1)) search

/-- `binarySearch` (orderbook.go): the Go recursion, entered with a
sufficient budget. -/
def binarySearch (pair : String) (slice : List FoundVolume) (search : ℚ) :
    FoundVolume :=
  binarySearchGo slice.length pair slice search

/-- `SearchVolume` (orderbook.go): missing pair returns the nil slice;
otherwise each side's goroutine binary-searches its volume-sorted view,
annotates `Difference` against the side's top-of-book price when a level
was found (`Price != 0`), stamps pair/exchange/side, and appends.  The
model serialises the two appends asks-first. -/
def SearchVolume (o : Orderbook) (pair exchange : String) (search : ℚ)
    (now : Nat) : List FoundVolume :=
  match getKey o.data pair with
  | none => []
  | some level2Data =>
    let asksSlice := level2Data.asksSortedByVolume
    let bidsSlice := level2Data.bidsSortedByVolume
    let fa0 := binarySearch pair asksSlice search
    let fa1 :=
      if fa0.Price ≠ 0 then
        { fa0 with
            Difference :=
              (fa0.Price - (level2Data.asksSortedByPrice.headD {}).Price) /
                fa0.Price * 100
            VolumeTimeFound := now }
      else fa0
    let fa := { fa1 with Side := "asks", Pair := pair, Exchange := exchange }
    let fb0 := binarySearch pair bidsSlice search
    let fb1 :=
      if fb0.Price ≠ 0 then
        { fb0 with
            Difference :=
              ((level2Data.bidsSortedByPrice.getLastD {}).Price - fb0.Price) /
                (level2Data.bidsSortedByPrice.getLastD {}).Price * 100
            VolumeTimeFound := now }
      else fb0
    let fb := { fb1 with Side := "bids", Pair := pair, Exchange := exchange }
    [fa, fb]

/-- The unique cache key `foundVolume.Pair + foundVolume.Exchange +
foundVolume.Side` of found_volumes_service.go. -/
def fvKey (fv : FoundVolume) : String := fv.Pair ++ fv.Exchange ++ fv.Side

/-- `foundVolumesService` (found_volumes_service.go): user-ID key to
per-user map from `fvKey` to `FoundVolume`. -/
structure FoundVolumesState where
  foundVolumesData : List (String × List (String × FoundVolume)) := []
  deriving Repr, DecidableEq

/-- `NewFoundVolumesService()`. -/
def NewFoundVolumesService : FoundVolumesState := {}

/-- `UpsertFoundVolume` (found_volumes_service.go): with no per-user map
yet, create one holding the volume unconditionally; with an existing map,
insert/overwrite under the key when `Price != 0` and remove the key's
entry when `Price == 0`. -/
def UpsertFoundVolume (s : FoundVolumesState) (userPairData : UserPairs)
    (foundVolume : FoundVolume) : FoundVolumesState :=
  let userID := toString userPairData.UserID
  let key := fvKey foundVolume
  match getKey s.foundVolumesData userID with
  | none =>
    ⟨setKey s.foundVolumesData userID (setKey [] key foundVolume)⟩
  | some userFoundVolumesData =>
    if foundVolume.Price ≠ 0 then
      ⟨setKey s.foundVolumesData userID
        (setKey userFoundVolumesData key foundVolume)⟩
    else
      ⟨setKey s.foundVolumesData userID
        (removeKey userFoundVolumesData key)⟩

/-- `GetAllFoundVolume` (found_volumes_service.go): unknown user yields
`errGettingFoundVolume`; otherwise the values of the user's map. -/
def GetAllFoundVolume (s : FoundVolumesState) (userID : Int) :
    Except String (List FoundVolume) :=
  match getKey s.foundVolumesData (toString userID) with
  | none => Except.error "error getting found volumes"
  | some userFoundVolumes => Except.ok (userFoundVolumes.map (fun e => e.2))

example : parseNum "50000" = 50000 := by
  simp +decide [parseNum, splitAtDot, digitsToNat]
example : parseNum "1" = 1 := by
  simp +decide [parseNum, splitAtDot, digitsToNat]
example : parseNum "" = 0 := by
  simp +decide [parseNum, splitAtDot, digitsToNat]
example : parseNum "1.5" = 3/2 := by
  simp +decide [parseNum, splitAtDot, digitsToNat]
  norm_num
example : parseNum "-2" = -2 := by
  simp +decide [parseNum, splitAtDot, digitsToNat]
example : parseNum "x7" = 0 := by
  simp +decide [parseNum, splitAtDot, digitsToNat]

/-! ## Lemmas about the association-list map model -/

theorem setKey_cons_ne {V : Type} (e : String × V) (rest : List (String × V))
    (k : String) (v : V) (he : (e.1 == k) = false) :
    setKey (e :: rest) k v = e :: setKey rest k v := by
  by_cases hr : rest.any (fun x => x.1 == k)
  · simp [setKey, List.any_cons, he, hr]
    intro h
    simp [h] at he
  · simp [setKey, List.any_cons, he, hr]

theorem find_setKey {V : Type} (m : List (String × V)) (k : String) (v : V) :
    List.find? (fun e => e.1 == k) (setKey m k v) = some (k, v) := by
  induction m with
  | nil => simp [setKey]
  | cons e rest ih =>
    by_cases he : (e.1 == k) = true
    · have hany : (e :: rest).any (fun x => x.1 == k) = true := by
        simp [List.any_cons, he]
      have hstep : setKey (e :: rest) k v =
          (k, v) :: rest.map (fun x => if x.1 == k then (k, v) else x) := by
        simp [setKey, hany, he]
        intro h
        exact absurd (by simpa using he) h
      rw [hstep]
      exact List.find?_cons_of_pos _ (by simp)
    · have he' : (e.1 == k) = false := by simpa using he
      rw [setKey_cons_ne e rest k v he']
      rw [List.find?_cons_of_neg _ (by simp [he'])]
      exact ih

theorem getKey_setKey {V : Type} (m : List (String × V)) (k : String) (v : V) :
    getKey (setKey m k v) k = some v := by
  simp [getKey, find_setKey]

theorem getKey_removeKey {V : Type} (m : List (String × V)) (k : String) :
    getKey (removeKey m k) k = none := by
  have hfind : List.find? (fun e => e.1 == k)
      (List.filter (fun e => !(e.1 == k)) m) = none := by
    rw [List.find?_eq_none]
    intro x hx
    have hx2 := (List.mem_filter.mp hx).2
    simp only [Bool.not_eq_true'] at hx2
    simp [hx2]
  simp [getKey, removeKey, hfind]

theorem foldl_setKey_fresh :
    ∀ (rows : List (String × String)) (acc : List (String × String)),
      (∀ r ∈ rows, acc.any (fun e => e.1 == r.1) = false) →
      (rows.map Prod.fst).Nodup →
      rows.foldl (fun buff val => setKey buff val.1 val.2) acc = acc ++ rows := by
  intro rows
  induction rows with
  | nil => intro acc _ _; simp
  | cons r rest ih =>
    intro acc hfresh hnodup
    have hset : setKey acc r.1 r.2 = acc ++ [r] := by
      simp [setKey, hfresh r (List.mem_cons_self r rest)]
    have hnotin : r.1 ∉ rest.map Prod.fst := by
      have := hnodup
      simp only [List.map_cons, List.nodup_cons] at this
      exact this.1
    have hfresh' : ∀ r' ∈ rest, (acc ++ [r]).any (fun e => e.1 == r'.1) = false := by
      intro r' hr'
      have h1 : acc.any (fun e => e.1 == r'.1) = false :=
        hfresh r' (List.mem_cons_of_mem r hr')
      have h2 : ¬ r.1 = r'.1 := by
        intro hEq
        exact hnotin (hEq ▸ List.mem_map_of_mem Prod.fst hr')
      simp [List.any_append, h1, h2]
    have hnodup' : (rest.map Prod.fst).Nodup := by
      simp only [List.map_cons, List.nodup_cons] at hnodup
      exact hnodup.2
    calc (r :: rest).foldl (fun buff val => setKey buff val.1 val.2) acc
        = rest.foldl (fun buff val => setKey buff val.1 val.2) (acc ++ [r]) := by
          simp [List.foldl_cons, hset]
      _ = (acc ++ [r]) ++ rest := ih (acc ++ [r]) hfresh' hnodup'
      _ = acc ++ (r :: rest) := by simp

theorem buildSide_eq_self (rows : List (String × String))
    (h : (rows.map Prod.fst).Nodup) : buildSide rows = rows := by
  have := foldl_setKey_fresh rows [] (by intro r _; simp) h
  simpa [buildSide] using this

/-! ## Lemmas about the binary search recursion budget -/

theorem binarySearchGo_nil (f : Nat) (pair : String) (search : ℚ) :
    binarySearchGo f pair [] search = {} := by
  cases f <;> simp [binarySearchGo]

theorem binarySearchGo_congr (pair : String) (search : ℚ) :
    ∀ (f g : Nat) (slice : List FoundVolume),
      slice.length ≤ f → slice.length ≤ g →
      binarySearchGo f pair slice search = binarySearchGo g pair slice search := by
  intro f
  induction f with
  | zero =>
    intro g slice hf _
    have : slice = [] := List.eq_nil_of_length_eq_zero (Nat.le_zero.mp hf)
    subst this
    simp [binarySearchGo_nil, binarySearchGo]
  | succ f ih =>
    intro g slice hf hg
    cases g with
    | zero =>
      have : slice = [] := List.eq_nil_of_length_eq_zero (Nat.le_zero.mp hg)
      subst this
      simp [binarySearchGo_nil, binarySearchGo]
    | succ g =>
      show (if slice.length = 0 then {}
          else if search ≤ (slice.getD (slice.length / 2) {}).Volume then
            slice.getD (slice.length / 2) {}
          else binarySearchGo f pair (slice.drop (slice.length / 2 + 1)) search) =
        (if slice.length = 0 then {}
          else if search ≤ (slice.getD (slice.length / 2) {}).Volume then
            slice.getD (slice.length / 2) {}
          else binarySearchGo g pair (slice.drop (slice.length / 2 + 1)) search)
      by_cases h0 : slice.length = 0
      · rw [if_pos h0, if_pos h0]
      · rw [if_neg h0, if_neg h0]
        by_cases hfound :
          search ≤ (slice.getD (slice.length / 2) {}).Volume
        · rw [if_pos hfound, if_pos hfound]
        · rw [if_neg hfound, if_neg hfound]
          have hlen : (slice.drop (slice.length / 2 + 1)).length ≤ f ∧
              (slice.drop (slice.length / 2 + 1)).length ≤ g := by
            rw [List.length_drop]
            omega
          exact ih g _ hlen.1 hlen.2

theorem binarySearch_eq_go (pair : String) (search : ℚ) (f : Nat)
    (slice : List FoundVolume) (h : slice.length ≤ f) :
    binarySearch pair slice search = binarySearchGo f pair slice search :=
  binarySearchGo_congr pair search slice.length f slice (Nat.le_refl _) h

theorem binarySearchGo_spec (pair : String) (search : ℚ) :
    ∀ (fuel : Nat) (slice : List FoundVolume), slice.length ≤ fuel →
      slice.Pairwise (fun a b => a.Volume ≤ b.Volume) →
      ((∀ f ∈ slice, f.Volume < search) →
          binarySearchGo fuel pair slice search = {}) ∧
      ((∃ f ∈ slice, search ≤ f.Volume) →
          binarySearchGo fuel pair slice search ∈ slice ∧
          search ≤ (binarySearchGo fuel pair slice search).Volume) := by
  intro fuel
  induction fuel with
  | zero =>
    intro slice hlen _
    have hnil : slice = [] := List.eq_nil_of_length_eq_zero (Nat.le_zero.mp hlen)
    subst hnil
    refine ⟨fun _ => by simp [binarySearchGo], ?_⟩
    rintro ⟨f, hf, _⟩
    exact absurd hf (List.not_mem_nil f)
  | succ fuel ih =>
    intro slice hlen hsorted
    by_cases h0 : slice.length = 0
    · have hnil : slice = [] := List.eq_nil_of_length_eq_zero h0
      subst hnil
      refine ⟨fun _ => by simp [binarySearchGo], ?_⟩
      rintro ⟨f, hf, _⟩
      exact absurd hf (List.not_mem_nil f)
    · have hmid : slice.length / 2 < slice.length :=
        Nat.div_lt_self (Nat.pos_of_ne_zero h0) (by omega)
      have hgetD : slice.getD (slice.length / 2) {} = slice[slice.length / 2] :=
        List.getD_eq_getElem slice {} hmid
      by_cases hfound : search ≤ (slice.getD (slice.length / 2) {}).Volume
      · have heq : binarySearchGo (fuel + 1) pair slice search =
            slice.getD (slice.length / 2) {} := by
          show (if slice.length = 0 then {}
            else if search ≤ (slice.getD (slice.length / 2) {}).Volume then
              slice.getD (slice.length / 2) {}
            else binarySearchGo fuel pair
              (slice.drop (slice.length / 2 + 1)) search) = _
          rw [if_neg h0, if_pos hfound]
        have hmemmid : slice.getD (slice.length / 2) {} ∈ slice := by
          rw [hgetD]
          exact List.getElem_mem hmid
        refine ⟨?_, ?_⟩
        · intro hall
          exact absurd hfound (not_le.mpr (hall _ hmemmid))
        · intro _
          rw [heq]
          exact ⟨hmemmid, hfound⟩
      · have heq : binarySearchGo (fuel + 1) pair slice search =
            binarySearchGo fuel pair (slice.drop (slice.length / 2 + 1)) search := by
          show (if slice.length = 0 then {}
            else if search ≤ (slice.getD (slice.length / 2) {}).Volume then
              slice.getD (slice.length / 2) {}
            else binarySearchGo fuel pair
              (slice.drop (slice.length / 2 + 1)) search) = _
          rw [if_neg h0, if_neg hfound]
        have hlen' : (slice.drop (slice.length / 2 + 1)).length ≤ fuel := by
          rw [List.length_drop]
          omega
        have hsorted' : (slice.drop (slice.length / 2 + 1)).Pairwise
            (fun a b => a.Volume ≤ b.Volume) :=
          List.Pairwise.sublist (List.drop_sublist _ _) hsorted
        have ihd := ih (slice.drop (slice.length / 2 + 1)) hlen' hsorted'
        refine ⟨?_, ?_⟩
        · intro hall
          rw [heq]
          exact ihd.1 (fun f hf =>
            hall f (List.Sublist.subset (List.drop_sublist _ _) hf))
        · rintro ⟨f0, hf0, hq⟩
          obtain ⟨j, hj, hjf⟩ := List.mem_iff_getElem.mp hf0
          have hmlt : slice[slice.length / 2].Volume < search := by
            rw [hgetD] at hfound
            exact not_le.mp hfound
          have hjgt : slice.length / 2 < j := by
            by_contra hle
            push_neg at hle
            have hv : slice[j].Volume ≤ slice[slice.length / 2].Volume := by
              rcases Nat.lt_or_eq_of_le hle with hlt | heqj
              · exact (List.pairwise_iff_getElem.mp hsorted) j
                  (slice.length / 2) hj hmid hlt
              · simp [heqj]
            rw [hjf] at hv
            exact absurd hq (not_le.mpr (lt_of_le_of_lt hv hmlt))
          have hjd : j - (slice.length / 2 + 1) <
              (slice.drop (slice.length / 2 + 1)).length := by
            rw [List.length_drop]
            omega
          have hidx : (slice.drop (slice.length / 2 + 1))[j -
              (slice.length / 2 + 1)] = slice[j] := by
            rw [List.getElem_drop]
            congr 1
            omega
          have hf0d : f0 ∈ slice.drop (slice.length / 2 + 1) := by
            rw [← hjf, ← hidx]
            exact List.getElem_mem hjd
          have hres := ihd.2 ⟨f0, hf0d, hq⟩
          rw [heq]
          exact ⟨List.Sublist.subset (List.drop_sublist _ _) hres.1, hres.2⟩

/-! ## Claim theorems -/

/-- C9: for every sequence sorted ascending by volume in which every element
has a nonzero price, `binarySearch` returns an element of the sequence whose
volume meets or exceeds the threshold whenever at least one such element
exists, and returns the zero `FoundVolume` (its `Price` is `0`, the
"not found" sentinel) whenever no element meets the threshold — in
particular a non-empty sequence whose volumes are all below the threshold
also yields the sentinel. -/
theorem binarySearch_meets_threshold_or_sentinel (pair : String) (search : ℚ)
    (slice : List FoundVolume)
    (hsorted : slice.Pairwise (fun a b => a.Volume ≤ b.Volume))
    (hprices : ∀ f ∈ slice, f.Price ≠ 0) :
    ((∃ f ∈ slice, search ≤ f.Volume) →
        binarySearch pair slice search ∈ slice ∧
        search ≤ (binarySearch pair slice search).Volume) ∧
    ((∀ f ∈ slice, f.Volume < search) →
        binarySearch pair slice search = {} ∧
        (binarySearch pair slice search).Price = 0) := by
  have h := binarySearchGo_spec pair search slice.length slice
    (Nat.le_refl _) hsorted
  refine ⟨fun hex => h.2 hex, fun hall => ?_⟩
  have h1 : binarySearch pair slice search = {} := h.1 hall
  exact ⟨h1, by rw [h1]⟩

/-- Witness for C9 at a concrete sorted two-level book and threshold 3: the
search returns a member of the sequence whose volume meets the threshold. -/
theorem binarySearch_meets_threshold_or_sentinel_witness :
    binarySearch "BTC/USDT"
      [{ Price := 10, Volume := 1 }, { Price := 20, Volume := 5 }] 3 ∈
      [({ Price := 10, Volume := 1 } : FoundVolume), { Price := 20, Volume := 5 }] ∧
    (3 : ℚ) ≤ (binarySearch "BTC/USDT"
      [{ Price := 10, Volume := 1 }, { Price := 20, Volume := 5 }] 3).Volume :=
  (binarySearch_meets_threshold_or_sentinel "BTC/USDT" 3
      [{ Price := 10, Volume := 1 }, { Price := 20, Volume := 5 }]
      (by decide) (by decide)).1
    ⟨{ Price := 20, Volume := 5 }, by decide, by decide⟩

/-- C1: evaluation of the source `binarySearch` on the spec's lower-bound
scenario `[(p1,1),(p2,5),(p3,5),(p4,9)]` with threshold `5` (prices
`10,20,30,40`): the code returns the midpoint qualifying element `(30,5)` at
index 2, which differs from the first (lowest-index) qualifying element
`(20,5)` at index 1 that the claim requires. -/
theorem binarySearch_returns_midpoint_not_lower_bound :
    binarySearch "BTC/USDT"
      [{ Price := 10, Volume := 1, Index := 0 },
       { Price := 20, Volume := 5, Index := 1 },
       { Price := 30, Volume := 5, Index := 2 },
       { Price := 40, Volume := 9, Index := 3 }] 5 =
      { Price := 30, Volume := 5, Index := 2 } ∧
    ({ Price := 30, Volume := 5, Index := 2 } : FoundVolume) ≠
      { Price := 20, Volume := 5, Index := 1 } := by
  decide

/-- C7: evaluation of the source `binarySearch` on a non-empty sequence
sorted ascending by non-negative volume with threshold `0`: the threshold is
accepted, but the code returns the middle element `(20,5)` at index 1, not
the first element `(10,1)` the claim requires. -/
theorem binarySearch_zero_threshold_returns_middle :
    binarySearch "BTC/USDT"
      [{ Price := 10, Volume := 1, Index := 0 },
       { Price := 20, Volume := 5, Index := 1 }] 0 =
      { Price := 20, Volume := 5, Index := 1 } ∧
    ({ Price := 20, Volume := 5, Index := 1 } : FoundVolume) ≠
      { Price := 10, Volume := 1, Index := 0 } := by
  decide

/-- C2 (counterexample): on a freshly created store, `SearchVolume` for a
pair with no snapshot returns the nil slice — zero results, not the two
zero-valued sentinel results the claim states. -/
theorem searchVolume_missing_pair_not_two_results :
    SearchVolume NewOrderbook "BTC/USD" "binance" 5 0 = [] ∧
    (SearchVolume NewOrderbook "BTC/USD" "binance" 5 0).length ≠ 2 := by
  decide

/-- C2 (amended): for every pair with no snapshot (no entry in the store),
`SearchVolume` returns the empty result slice, for every exchange name,
threshold and timestamp. -/
theorem searchVolume_missing_pair_empty (o : Orderbook) (pair exchange : String)
    (search : ℚ) (now : Nat) (h : getKey o.data pair = none) :
    SearchVolume o pair exchange search now = [] := by
  simp [SearchVolume, h]

/-- Witness for C2 (amended) at a store holding a different pair. -/
theorem searchVolume_missing_pair_empty_witness :
    SearchVolume (Upsert NewOrderbook "ETH/USDT" [] []) "BTC/USDT" "bybit" 1 7
      = [] :=
  searchVolume_missing_pair_empty _ _ _ _ _ (by decide)

/-- C3 (counterexample): on a fresh service (the user has no cached map
yet), `UpsertFoundVolume` with a zero-price `FoundVolume` creates the
user's map and inserts the zero-price entry, so it does appear in
`GetAllFoundVolume` — contradicting the claim for the no-map case. -/
theorem upsertFoundVolume_fresh_user_keeps_zero_price :
    GetAllFoundVolume
      (UpsertFoundVolume NewFoundVolumesService { UserID := 1 }
        { Pair := "BTC/USD", Exchange := "binance", Side := "asks" }) 1 =
      Except.ok [{ Pair := "BTC/USD", Exchange := "binance", Side := "asks" }] ∧
    ({ Pair := "BTC/USD", Exchange := "binance", Side := "asks" } :
      FoundVolume).Price = 0 :=
  ⟨rfl, rfl⟩

/-- C3 (amended): for a user that already has a cached map, upserting a
`FoundVolume` with `Price = 0` removes the cache entry under its
`pair+exchange+side` key (the key is absent afterwards), while a
`FoundVolume` with `Price ≠ 0` is inserted or overwritten under that key;
for a user with no cached map yet the volume is inserted unconditionally
(see the counterexample). -/
theorem upsertFoundVolume_existing_user_transition (s : FoundVolumesState)
    (u : UserPairs) (fv : FoundVolume) (m : List (String × FoundVolume))
    (h : getKey s.foundVolumesData (toString u.UserID) = some m) :
    (fv.Price = 0 →
        getKey (UpsertFoundVolume s u fv).foundVolumesData (toString u.UserID)
          = some (removeKey m (fvKey fv)) ∧
        getKey (removeKey m (fvKey fv)) (fvKey fv) = none) ∧
    (fv.Price ≠ 0 →
        getKey (UpsertFoundVolume s u fv).foundVolumesData (toString u.UserID)
          = some (setKey m (fvKey fv) fv) ∧
        getKey (setKey m (fvKey fv) fv) (fvKey fv) = some fv) := by
  constructor
  · intro hz
    have hstep : UpsertFoundVolume s u fv =
        ⟨setKey s.foundVolumesData (toString u.UserID)
          (removeKey m (fvKey fv))⟩ := by
      simp [UpsertFoundVolume, h, hz]
    rw [hstep]
    exact ⟨getKey_setKey _ _ _, getKey_removeKey _ _⟩
  · intro hnz
    have hstep : UpsertFoundVolume s u fv =
        ⟨setKey s.foundVolumesData (toString u.UserID)
          (setKey m (fvKey fv) fv)⟩ := by
      simp [UpsertFoundVolume, h, hnz]
    rw [hstep]
    exact ⟨getKey_setKey _ _ _, getKey_setKey _ _ _⟩

/-- Witness for C3 (amended): a user with one cached entry, upserting a
zero-price result for the same key, afterwards has no entry under the key. -/
theorem upsertFoundVolume_existing_user_transition_witness :
    getKey (UpsertFoundVolume
        { foundVolumesData := [("1", [("PEasks",
            ({ Pair := "P", Exchange := "E", Side := "asks", Price := 7 } :
              FoundVolume))])] }
        { UserID := 1 }
        { Pair := "P", Exchange := "E", Side := "asks" }).foundVolumesData
      (toString ({ UserID := 1 } : UserPairs).UserID) =
      some (removeKey
        [("PEasks",
          ({ Pair := "P", Exchange := "E", Side := "asks", Price := 7 } :
            FoundVolume))]
        (fvKey { Pair := "P", Exchange := "E", Side := "asks" })) ∧
    getKey (removeKey
        [("PEasks",
          ({ Pair := "P", Exchange := "E", Side := "asks", Price := 7 } :
            FoundVolume))]
        (fvKey { Pair := "P", Exchange := "E", Side := "asks" }))
      (fvKey { Pair := "P", Exchange := "E", Side := "asks" }) = none :=
  (upsertFoundVolume_existing_user_transition _ _ _ _ (by decide)).1 (by decide)

/-- C4: after `Upsert(p, asks1, bids1)` then `Upsert(p, asks2, bids2)`,
`Asks(p)` and `Bids(p)` contain exactly the entries of `asks2` and `bids2`
respectively (the second input, with its distinct price keys, verbatim);
nothing from the first input survives — replacement, never a union. -/
theorem upsert_replaces_not_merges (o : Orderbook) (pair : String)
    (asks1 bids1 asks2 bids2 : List (String × String))
    (ha : (asks2.map Prod.fst).Nodup) (hb : (bids2.map Prod.fst).Nodup) :
    Asks (Upsert (Upsert o pair asks1 bids1) pair asks2 bids2) pair =
      Except.ok asks2 ∧
    Bids (Upsert (Upsert o pair asks1 bids1) pair asks2 bids2) pair =
      Except.ok bids2 := by
  constructor
  · simp [Asks, Upsert, getKey_setKey, itemsE, buildSide_eq_self asks2 ha]
  · simp [Bids, Upsert, getKey_setKey, itemsE, buildSide_eq_self bids2 hb]

/-- Witness for C4: two concrete upserts for the same pair; the reads
return exactly the second input. -/
theorem upsert_replaces_not_merges_witness :
    Asks (Upsert (Upsert NewOrderbook "BTC/USD" [("1", "1")] [("2", "2")])
        "BTC/USD" [("50000", "1"), ("51000", "2")] [("49000", "3")])
      "BTC/USD" = Except.ok [("50000", "1"), ("51000", "2")] ∧
    Bids (Upsert (Upsert NewOrderbook "BTC/USD" [("1", "1")] [("2", "2")])
        "BTC/USD" [("50000", "1"), ("51000", "2")] [("49000", "3")])
      "BTC/USD" = Except.ok [("49000", "3")] :=
  upsert_replaces_not_merges NewOrderbook "BTC/USD" [("1", "1")] [("2", "2")]
    [("50000", "1"), ("51000", "2")] [("49000", "3")] (by decide) (by decide)

/-! ## Sort-consistency lemmas -/

theorem entriesToVolumes_proj (m : List (String × String)) :
    (entriesToVolumes m).map (fun f => (f.Price, f.Volume)) =
      m.map (fun kv => (parseNum kv.1, parseNum kv.2)) := by
  simp only [entriesToVolumes, List.map_map]
  have hcomp : ((fun f : FoundVolume => (f.Price, f.Volume)) ∘
      (fun p : Nat × (String × String) =>
        ({ Index := (p.1 : Int), Price := parseNum p.2.1,
           Volume := parseNum p.2.2 } : FoundVolume))) =
      ((fun kv : String × String => (parseNum kv.1, parseNum kv.2)) ∘
        Prod.snd) := rfl
  rw [hcomp, ← List.map_map, List.enum_map_snd]

theorem sortHashMap_byVolume_sorted (m : List (String × String)) :
    (sortHashMap m).ByVolume.Pairwise (fun a b => a.Volume ≤ b.Volume) := by
  have h := @List.sorted_insertionSort FoundVolume
    (fun a b => a.Volume ≤ b.Volume) _
    ⟨fun a b => le_total a.Volume b.Volume⟩
    ⟨fun a b c hab hbc => le_trans hab hbc⟩ (entriesToVolumes m)
  simpa [sortHashMap, List.Sorted] using h

theorem sortHashMap_byPrice_sorted (m : List (String × String)) :
    (sortHashMap m).ByPrice.Pairwise (fun a b => a.Price ≤ b.Price) := by
  have h := @List.sorted_insertionSort FoundVolume
    (fun a b => a.Price ≤ b.Price) _
    ⟨fun a b => le_total a.Price b.Price⟩
    ⟨fun a b c hab hbc => le_trans hab hbc⟩ (entriesToVolumes m)
  simpa [sortHashMap, List.Sorted] using h

theorem sortHashMap_byVolume_perm (m : List (String × String)) :
    ((sortHashMap m).ByVolume.map (fun f => (f.Price, f.Volume))).Perm
      (m.map (fun kv => (parseNum kv.1, parseNum kv.2))) := by
  have h := (List.perm_insertionSort
    (fun a b : FoundVolume => a.Volume ≤ b.Volume) (entriesToVolumes m)).map
    (fun f => (f.Price, f.Volume))
  rw [entriesToVolumes_proj] at h
  simpa [sortHashMap] using h

theorem sortHashMap_byPrice_perm (m : List (String × String)) :
    ((sortHashMap m).ByPrice.map (fun f => (f.Price, f.Volume))).Perm
      (m.map (fun kv => (parseNum kv.1, parseNum kv.2))) := by
  have h := (List.perm_insertionSort
    (fun a b : FoundVolume => a.Price ≤ b.Price) (entriesToVolumes m)).map
    (fun f => (f.Price, f.Volume))
  rw [entriesToVolumes_proj] at h
  simpa [sortHashMap] using h

/-- C5: after every completed `Upsert` for a pair, the stored snapshot's
four derived sequences are consistent with its `asks`/`bids` maps: each
price-sorted sequence is non-decreasing by price, each volume-sorted
sequence is non-decreasing by volume, and each one's (price, volume)
entries are a permutation of the side's parsed price→volume entries. -/
theorem upsert_sort_consistency (o : Orderbook) (pair : String)
    (asks bids : List (String × String)) :
    ∃ d : OrderbookData,
      getKey (Upsert o pair asks bids).data pair = some d ∧
      d.asks = some (buildSide asks) ∧
      d.bids = some (buildSide bids) ∧
      d.asksSortedByPrice.Pairwise (fun a b => a.Price ≤ b.Price) ∧
      (d.asksSortedByPrice.map (fun f => (f.Price, f.Volume))).Perm
        ((buildSide asks).map (fun kv => (parseNum kv.1, parseNum kv.2))) ∧
      d.asksSortedByVolume.Pairwise (fun a b => a.Volume ≤ b.Volume) ∧
      (d.asksSortedByVolume.map (fun f => (f.Price, f.Volume))).Perm
        ((buildSide asks).map (fun kv => (parseNum kv.1, parseNum kv.2))) ∧
      d.bidsSortedByPrice.Pairwise (fun a b => a.Price ≤ b.Price) ∧
      (d.bidsSortedByPrice.map (fun f => (f.Price, f.Volume))).Perm
        ((buildSide bids).map (fun kv => (parseNum kv.1, parseNum kv.2))) ∧
      d.bidsSortedByVolume.Pairwise (fun a b => a.Volume ≤ b.Volume) ∧
      (d.bidsSortedByVolume.map (fun f => (f.Price, f.Volume))).Perm
        ((buildSide bids).map (fun kv => (parseNum kv.1, parseNum kv.2))) := by
  refine ⟨{ Pair := pair
            asks := some (buildSide asks)
            bids := some (buildSide bids)
            asksSortedByPrice := (sortHashMap (buildSide asks)).ByPrice
            asksSortedByVolume := (sortHashMap (buildSide asks)).ByVolume
            bidsSortedByPrice := (sortHashMap (buildSide bids)).ByPrice
            bidsSortedByVolume := (sortHashMap (buildSide bids)).ByVolume },
    ?_, rfl, rfl, ?_, ?_, ?_, ?_, ?_, ?_, ?_, ?_⟩
  · exact getKey_setKey _ _ _
  · exact sortHashMap_byPrice_sorted _
  · exact sortHashMap_byPrice_perm _
  · exact sortHashMap_byVolume_sorted _
  · exact sortHashMap_byVolume_perm _
  · exact sortHashMap_byPrice_sorted _
  · exact sortHashMap_byPrice_perm _
  · exact sortHashMap_byVolume_sorted _
  · exact sortHashMap_byVolume_perm _

/-- C6: evaluation of the end-to-end scenario on the source code.  After
upserting asks `[[50000,"1"],[51000,"2"]]` and bids `[[49000,"1"],
[48000,"2"]]` for `"BTC/USD"`, `SearchVolume("BTC/USD","binance",1)`
returns two results, one per side, but both carry the *larger* level
(volume `2`) with a nonzero `difference` — not volume `1` with difference
`0` as the claim requires — because `binarySearch` answers with the
midpoint qualifying level instead of the minimal one. -/
theorem searchVolume_scenario_nonminimal :
    SearchVolume (Upsert NewOrderbook "BTC/USD"
        [("50000", "1"), ("51000", "2")] [("49000", "1"), ("48000", "2")])
      "BTC/USD" "binance" 1 0 =
      [{ Exchange := "binance", Pair := "BTC/USD", Price := 51000, Index := 1,
         Difference := 100 / 51, Volume := 2, VolumeTimeFound := 0,
         Side := "asks" },
       { Exchange := "binance", Pair := "BTC/USD", Price := 48000, Index := 1,
         Difference := 100 / 49, Volume := 2, VolumeTimeFound := 0,
         Side := "bids" }] ∧
    (100 : ℚ) / 51 ≠ 0 ∧ (100 : ℚ) / 49 ≠ 0 ∧ (2 : ℚ) ≠ 1 := by
  constructor
  · simp +decide [SearchVolume, Upsert, NewOrderbook, buildSide, setKey,
      getKey, removeKey, sortHashMap, entriesToVolumes, parseNum, splitAtDot,
      digitsToNat, binarySearch, binarySearchGo, FoundVolume.mk.injEq]
    norm_num
  · norm_num

/-- C8 (counterexample): `Asks("unknown")` and `Bids("unknown")` on a fresh
store reach `Items()` of the zero-value inner concurrent map, which panics
in concurrent-map v2 (modelled as an error result) — they do not return an
empty mapping. -/
theorem asks_unknown_pair_panics :
    Asks NewOrderbook "unknown" = Except.error cmapUninitializedPanic ∧
    Bids NewOrderbook "unknown" = Except.error cmapUninitializedPanic ∧
    Asks NewOrderbook "unknown" ≠ Except.ok [] :=
  ⟨rfl, rfl, by simp [Asks, NewOrderbook, getKey, itemsE]⟩

/-- C8 (amended): for every pair that has never been upserted (no entry in
the store), `Asks` and `Bids` panic on the zero-value inner concurrent map
(the modelled panic of concurrent-map v2) instead of returning an empty
mapping; no ordinary error value is ever returned. -/
theorem asks_bids_never_upserted_panic (o : Orderbook) (pair : String)
    (h : getKey o.data pair = none) :
    Asks o pair = Except.error cmapUninitializedPanic ∧
    Bids o pair = Except.error cmapUninitializedPanic := by
  have hgd : (getKey o.data pair).getD {} = ({} : OrderbookData) := by
    rw [h]
    rfl
  constructor
  · show itemsE ((getKey o.data pair).getD {}).asks = _
    rw [hgd]
    rfl
  · show itemsE ((getKey o.data pair).getD {}).bids = _
    rw [hgd]
    rfl

/-- Witness for C8 (amended) at a store holding only a different pair. -/
theorem asks_bids_never_upserted_panic_witness :
    Asks (Upsert NewOrderbook "ETH/USDT" [] []) "DOGE/USDT" =
      Except.error cmapUninitializedPanic ∧
    Bids (Upsert NewOrderbook "ETH/USDT" [] []) "DOGE/USDT" =
      Except.error cmapUninitializedPanic :=
  asks_bids_never_upserted_panic _ _ (by decide)
